import Mathlib

/-!
Verification of `monai/networks/blocks/convolutions.py`.

The file shallowly embeds the two classes of the source, `Convolution`
(a sequential block: conv, then optionally norm / dropout / act) and
`ResidualUnit` (a stack of `Convolution` sub-units plus a residual path),
together with the external collaborators they call (`same_padding`,
`split_args` and the `Conv` / `Norm` / `Act` / `Dropout` factories, which
are not part of the listed source and are modelled from the spec).
Construction is fallible (Python exceptions) and is embedded in `Except`.
-/

/-- Construction-time failure kinds: unpacking `None` in `split_args`
(a `TypeError`), a factory-registry lookup miss (a `KeyError`), the padding
calculator's rejection (a `NotImplementedError`), a numpy broadcast failure,
and integer arithmetic on a sequence (`strides - 1` on a tuple). -/
inductive ConstrErr
  | unpackNone
  | lookupFailure
  | samePaddingEven
  | broadcastFailure
  | typeError
deriving DecidableEq, Repr

deriving instance DecidableEq for Except

/-- Keyword-argument mapping of a layer spec (numeric values as rationals). -/
abbrev Args := List (String × ℚ)

/-- A symbolic layer spec: either a bare name string or a (name, kwargs) pair. -/
inductive LayerSpec
  | name (n : String)
  | pair (n : String) (args : Args)
deriving DecidableEq, Repr

/-- The name of a layer spec. -/
def LayerSpec.specName : LayerSpec → String
  | .name n => n
  | .pair n _ => n

/-- The `dropout` argument of `Convolution.__init__`: `None`, a bare numeric
value, or a symbolic layer spec. -/
inductive DropoutParam
  | none
  | num (p : ℚ)
  | spec (s : LayerSpec)
deriving DecidableEq, Repr

/-- Python truthiness of the `dropout` argument, as tested by `if dropout:`
(line 90): `None` and numeric zero are falsy, an empty name string is falsy,
any other value is truthy. -/
def DropoutParam.truthy : DropoutParam → Bool
  | .none => false
  | .num p => decide (p ≠ 0)
  | .spec (.name n) => decide (n ≠ "")
  | .spec (.pair _ _) => true

/-- A convolution geometry argument: a scalar applied to all axes, or an
explicit per-axis sequence (`Union[Sequence[int], int]` in the source). -/
inductive Param
  | scalar (n : Nat)
  | axes (ns : List Nat)
deriving DecidableEq, Repr

/-- The values held by a `Param`, as `np.atleast_1d` sees them. -/
def Param.vals : Param → List Nat
  | .scalar n => [n]
  | .axes ns => ns

/-- `np.prod` of the argument (product over one element for a scalar). -/
def Param.prod (p : Param) : Nat := p.vals.prod

/-- Per-axis view of a `Param` for a given number of spatial dimensions:
a scalar broadcasts to every axis, a sequence is used as given. -/
def Param.expand (dims : Nat) : Param → List Nat
  | .scalar n => List.replicate dims n
  | .axes ns => ns

/-- A `Param` is well-formed for `dims` axes when its per-axis view has
exactly `dims` entries (automatic for scalars). -/
def Param.wf (dims : Nat) (p : Param) : Prop := (p.expand dims).length = dims

instance (dims : Nat) (p : Param) : Decidable (p.wf dims) := by
  unfold Param.wf; infer_instance

/-- `strides - 1` as Python evaluates it: integer arithmetic on a scalar,
a `TypeError` on a sequence. -/
def Param.subOne : Param → Except ConstrErr Param
  | .scalar n => .ok (.scalar (n - 1))
  | .axes _ => .error .typeError

/-- numpy-style broadcast of two geometry arguments to a list of pairs. -/
def Param.bcast : Param → Param → Option (List (Nat × Nat))
  | .scalar a, .scalar b => some [(a, b)]
  | .scalar a, .axes bs => some (bs.map (fun b => (a, b)))
  | .axes as, .scalar b => some (as.map (fun a => (a, b)))
  | .axes as, .axes bs =>
      if as.length = bs.length then some (as.zip bs) else Option.none

/-- Modelled from the spec: the padding calculator `same_padding` (external
collaborator from `monai.networks.layers.convutils`, not in the listed
source). It derives symmetric same padding `((kernel_size - 1) * dilation)
// 2` per axis and fails if any kernel size is even. -/
def same_padding (kernel dilation : Param) : Except ConstrErr Param :=
  match kernel, dilation with
  | .scalar k, .scalar d =>
      if k % 2 == 1 then .ok (.scalar ((k - 1) * d / 2)) else .error .samePaddingEven
  | kp, dp =>
      match kp.bcast dp with
      | Option.none => .error .broadcastFailure
      | some pairs =>
          if pairs.all (fun kd => kd.1 % 2 == 1) then
            .ok (.axes (pairs.map (fun kd => (kd.1 - 1) * kd.2 / 2)))
          else .error .samePaddingEven

/-- Modelled from the spec: the spatial dimensionalities the `Conv`, `Norm`
and `Dropout` factories are populated for (1D/2D/3D). -/
def spatialDims : List Nat := [1, 2, 3]

/-- Modelled from the spec: the names registered in the normalization
factory `Norm`. -/
def normRegistry : List String :=
  ["instance", "batch", "group", "layer", "localresponse"]

/-- Modelled from the spec: the names registered in the activation
factory `Act`. -/
def actRegistry : List String :=
  ["relu", "leakyrelu", "prelu", "relu6", "tanh", "elu", "sigmoid", "softmax", "logsoftmax"]

/-- Modelled from the spec: the names registered in the dropout
factory `Dropout`. -/
def dropoutRegistry : List String := ["dropout"]

/-- The factory default activation spec `Act.PRELU`. -/
def Act.PRELU : LayerSpec := .name "prelu"

/-- The factory default normalization spec `Norm.INSTANCE`. -/
def Norm.INSTANCE : LayerSpec := .name "instance"

/-- The factory default dropout name `Dropout.DROPOUT`. -/
def Dropout.DROPOUT : String := "dropout"

/-- Modelled from the spec: `split_args` (external collaborator from
`monai.networks.layers.factories`) splits a symbolic spec into a (name,
kwargs) pair: a bare name gets empty kwargs, and unpacking `None` fails. -/
def split_args : Option LayerSpec → Except ConstrErr (String × Args)
  | Option.none => .error .unpackNone
  | some (.name n) => .ok (n, [])
  | some (.pair n a) => .ok (n, a)

/-- Modelled from the spec: the lookup `Conv[CONV or CONVTRANS, dimensions]`,
failing for an unsupported dimensionality. -/
def convLookup (_is_transposed : Bool) (dims : Nat) : Except ConstrErr Unit :=
  if dims ∈ spatialDims then .ok () else .error .lookupFailure

/-- Modelled from the spec: the lookup `Norm[name, dimensions]`, failing for
an unregistered name or unsupported dimensionality. -/
def normLookup (name : String) (dims : Nat) : Except ConstrErr Unit :=
  if name ∈ normRegistry ∧ dims ∈ spatialDims then .ok () else .error .lookupFailure

/-- Modelled from the spec: the lookup `Act[name]`, failing for an
unregistered name. -/
def actLookup (name : String) : Except ConstrErr Unit :=
  if name ∈ actRegistry then .ok () else .error .lookupFailure

/-- Modelled from the spec: the lookup `Dropout[name, dimensions]`, failing
for an unregistered name or unsupported dimensionality. -/
def dropoutLookup (name : String) (dims : Nat) : Except ConstrErr Unit :=
  if name ∈ dropoutRegistry ∧ dims ∈ spatialDims then .ok () else .error .lookupFailure

/-- A constructed sub-layer, recording the constructor and the arguments the
source passes to it (lines 101, 103, 108, 110, 112 and 184 of the source). -/
inductive Layer
  | conv (dims inC outC : Nat) (kernel stride padding dilation : Param) (bias : Bool)
  | convTrans (dims inC outC : Nat) (kernel stride padding outputPadding : Param)
      (groups : Nat) (bias : Bool) (dilation : Param)
  | norm (name : String) (dims channels : Nat) (args : Args)
  | dropoutL (name : String) (dims : Nat) (args : Args)
  | actL (name : String) (args : Args)
  | identity
deriving DecidableEq, Repr

/-- Whether a layer is a (plain or transposed) convolution. -/
def Layer.isConvLayer : Layer → Bool
  | .conv _ _ _ _ _ _ _ _ => true
  | .convTrans _ _ _ _ _ _ _ _ _ _ => true
  | _ => false

/-- The `Convolution` block of the source: an `nn.Sequential` of named
sub-layers, plus the attributes set in `__init__` (lines 71-74). -/
structure Convolution where
  dimensions : Nat
  in_channels : Nat
  out_channels : Nat
  is_transposed : Bool
  layers : List (String × Layer)
deriving DecidableEq, Repr

/-- Resolution of the activation argument (lines 84-88): `None` is accepted
and resolves to no activation; otherwise the spec is split and the name is
looked up in the `Act` factory. -/
def actResolve (act : Option LayerSpec) : Except ConstrErr (Option (String × Args)) :=
  match act with
  | Option.none => .ok Option.none
  | some a =>
      match split_args (some a) with
      | .error e => .error e
      | .ok (an, aa) =>
          match actLookup an with
          | .error e => .error e
          | .ok _ => .ok (some (an, aa))

/-- Resolution of the dropout argument (lines 90-98): nothing happens when
the argument is falsy; a bare numeric value is treated as the default
dropout kind with keyword `p`; otherwise the spec is split; finally the name
is looked up in the `Dropout` factory. -/
def dropoutResolve (dropout : DropoutParam) (dims : Nat) :
    Except ConstrErr (Option (String × Args)) :=
  if dropout.truthy then
    match dropout with
    | .none => .error .lookupFailure
    | .num p =>
        match dropoutLookup Dropout.DROPOUT dims with
        | .error e => .error e
        | .ok _ => .ok (some (Dropout.DROPOUT, [("p", p)]))
    | .spec s =>
        match split_args (some s) with
        | .error e => .error e
        | .ok (dn, da) =>
            match dropoutLookup dn dims with
            | .error e => .error e
            | .ok _ => .ok (some (dn, da))
  else .ok Option.none

/-- `Convolution.__init__` (lines 55-112 of the source): compute the same
padding, look up the convolution type, resolve norm, act and dropout, build
the convolution layer (with output padding `strides - 1` and groups 1 when
transposed), then register `conv` and, unless `conv_only`, `norm`, then
`dropout` if requested, then `act` if given. -/
def Convolution.init (dims inC outC : Nat) (strides kernel : Param)
    (act norm : Option LayerSpec) (dropout : DropoutParam)
    (dilation : Param) (bias conv_only is_transposed : Bool) :
    Except ConstrErr Convolution :=
  match same_padding kernel dilation with
  | .error e => .error e
  | .ok padding =>
  match convLookup is_transposed dims with
  | .error e => .error e
  | .ok _ =>
  match split_args norm with
  | .error e => .error e
  | .ok (norm_name, norm_args) =>
  match normLookup norm_name dims with
  | .error e => .error e
  | .ok _ =>
  match actResolve act with
  | .error e => .error e
  | .ok actInfo =>
  match dropoutResolve dropout dims with
  | .error e => .error e
  | .ok dropInfo =>
  match (if is_transposed then
           match strides.subOne with
           | .error e => Except.error e
           | .ok op =>
               Except.ok (Layer.convTrans dims inC outC kernel strides padding op 1 bias dilation)
         else Except.ok (Layer.conv dims inC outC kernel strides padding dilation bias)) with
  | .error e => .error e
  | .ok conv =>
  Except.ok ⟨dims, inC, outC, is_transposed,
    [("conv", conv)] ++
      (if conv_only then [] else
        [("norm", Layer.norm norm_name dims outC norm_args)] ++
          (match dropInfo with
           | some (dn, da) => [("dropout", Layer.dropoutL dn dims da)]
           | Option.none => []) ++
          (match actInfo with
           | some (an, aa) => [("act", Layer.actL an aa)]
           | Option.none => []))⟩

/-- The `ResidualUnit` of the source: the attributes of `__init__`, the
`self.conv` sequence of named sub-units and the `self.residual` layer. -/
structure ResidualUnit where
  dimensions : Nat
  in_channels : Nat
  out_channels : Nat
  conv : List (String × Convolution)
  residual : Layer
deriving DecidableEq, Repr

/-- The sub-unit loop of `ResidualUnit.__init__` (lines 152-172), with the
mutable `schannels` / `sstrides` threaded explicitly: `count` sub-units
remain, the running index is `su`, and after the first iteration the
channels become `out_channels` and the strides become 1. `conv_only` holds
for the last iteration exactly when `last_conv_only` is set. -/
def buildUnits (dims outC : Nat) (kernel : Param) (act norm : Option LayerSpec)
    (dropout : DropoutParam) (dilation : Param) (bias last_conv_only : Bool) :
    Nat → Nat → Nat → Param → Except ConstrErr (List (String × Convolution))
  | _, 0, _, _ => .ok []
  | su, n + 1, schannels, sstrides =>
      match Convolution.init dims schannels outC sstrides kernel act norm dropout dilation
          bias (last_conv_only && n == 0) false with
      | .error e => .error e
      | .ok u =>
          match buildUnits dims outC kernel act norm dropout dilation bias last_conv_only
              (su + 1) n outC (.scalar 1) with
          | .error e => .error e
          | .ok rest => .ok (("unit" ++ toString su, u) :: rest)

/-- `ResidualUnit.__init__` (lines 125-184 of the source): compute the same
padding, build `max 1 subunits` sub-units starting from `in_channels` and
the requested strides, then select the residual path: identity when the
stride product is 1 and the channel counts agree, otherwise a single plain
convolution with the requested stride (kernel 1 and padding 0 when only the
channel count changes). -/
def ResidualUnit.init (dims inC outC : Nat) (strides kernel : Param) (subunits : Nat)
    (act norm : Option LayerSpec) (dropout : DropoutParam) (dilation : Param)
    (bias last_conv_only : Bool) : Except ConstrErr ResidualUnit :=
  match same_padding kernel dilation with
  | .error e => .error e
  | .ok padding =>
  match buildUnits dims outC kernel act norm dropout dilation bias last_conv_only
      0 (max 1 subunits) inC strides with
  | .error e => .error e
  | .ok units =>
  if strides.prod ≠ 1 ∨ inC ≠ outC then
    match convLookup false dims with
    | .error e => .error e
    | .ok _ =>
        let rk := if strides.prod = 1 then Param.scalar 1 else kernel
        let rp := if strides.prod = 1 then Param.scalar 0 else padding
        .ok ⟨dims, inC, outC, units, Layer.conv dims inC outC rk strides rp (Param.scalar 1) bias⟩
  else .ok ⟨dims, inC, outC, units, Layer.identity⟩

/-- A tensor shape: channel count and per-axis spatial sizes (the batch axis
plays no role here). -/
structure Shape where
  channels : Nat
  spatial : List Nat
deriving DecidableEq, Repr

/-- Output spatial size of one convolution axis (the standard formula
`floor((n + 2p - d*(k-1) - 1) / s) + 1`). -/
def convOutDim (n k s p d : Nat) : Nat := (n + 2 * p - d * (k - 1) - 1) / s + 1

/-- Per-axis output sizes of a convolution. -/
def convSpatial : List Nat → List Nat → List Nat → List Nat → List Nat → List Nat
  | n :: ns, k :: ks, s :: ss, p :: ps, d :: ds =>
      convOutDim n k s p d :: convSpatial ns ks ss ps ds
  | _, _, _, _, _ => []

/-- Applicability of a convolution: the axis lists agree in length and every
axis yields an output size of at least one. -/
def convValid : List Nat → List Nat → List Nat → List Nat → List Nat → Bool
  | [], [], [], [], [] => true
  | n :: ns, k :: ks, _ :: ss, p :: ps, d :: ds =>
      decide (d * (k - 1) + 1 ≤ n + 2 * p) && convValid ns ks ss ps ds
  | _, _, _, _, _ => false

/-- Per-axis output sizes of a transposed convolution
(`(n-1)*s - 2p + d*(k-1) + op + 1`). -/
def convTransSpatial : List Nat → List Nat → List Nat → List Nat → List Nat → List Nat → List Nat
  | n :: ns, k :: ks, s :: ss, p :: ps, o :: os, d :: ds =>
      ((n - 1) * s + d * (k - 1) + o + 1 - 2 * p) :: convTransSpatial ns ks ss ps os ds
  | _, _, _, _, _, _ => []

/-- Shape semantics of one sub-layer: a convolution checks its input channel
count, rank and applicability and transforms the spatial sizes; a
normalization checks its channel count and preserves the shape; dropout,
activation and identity preserve the shape. -/
def Layer.outShape : Layer → Shape → Option Shape
  | .conv dims inC outC kernel stride padding dilation _, sh =>
      if sh.channels == inC && sh.spatial.length == dims &&
          convValid sh.spatial (kernel.expand dims) (stride.expand dims)
            (padding.expand dims) (dilation.expand dims) then
        some ⟨outC, convSpatial sh.spatial (kernel.expand dims) (stride.expand dims)
          (padding.expand dims) (dilation.expand dims)⟩
      else Option.none
  | .convTrans dims inC outC kernel stride padding op _ _ dilation, sh =>
      if sh.channels == inC && sh.spatial.length == dims then
        some ⟨outC, convTransSpatial sh.spatial (kernel.expand dims) (stride.expand dims)
          (padding.expand dims) (op.expand dims) (dilation.expand dims)⟩
      else Option.none
  | .norm _ _ c _, sh => if sh.channels == c then some sh else Option.none
  | .dropoutL _ _ _, sh => some sh
  | .actL _ _, sh => some sh
  | .identity, sh => some sh

/-- Shape semantics of a named-layer sequence (`nn.Sequential`). -/
def applyLayers : List (String × Layer) → Shape → Option Shape
  | [], sh => some sh
  | l :: rest, sh =>
      match l.2.outShape sh with
      | Option.none => Option.none
      | some s2 => applyLayers rest s2

/-- Shape semantics of a `Convolution` block. -/
def Convolution.outShape (b : Convolution) : Shape → Option Shape := applyLayers b.layers

/-- Shape semantics of the main path of a `ResidualUnit` (its sub-units in
sequence). -/
def mainOutShape : List (String × Convolution) → Shape → Option Shape
  | [], sh => some sh
  | u :: rest, sh =>
      match u.2.outShape sh with
      | Option.none => Option.none
      | some s2 => mainOutShape rest s2

/-- Value semantics of a named-layer sequence under an interpretation `I` of
the primitive layers. -/
def applyLayersFwd {T : Type} (I : Layer → T → T) : List (String × Layer) → T → T
  | [], x => x
  | l :: rest, x => applyLayersFwd I rest (I l.2 x)

/-- Value semantics of a `Convolution` block under an interpretation. -/
def Convolution.fwd {T : Type} (I : Layer → T → T) (b : Convolution) : T → T :=
  applyLayersFwd I b.layers

/-- Value semantics of the main path under an interpretation. -/
def mainFwd {T : Type} (I : Layer → T → T) : List (String × Convolution) → T → T
  | [], x => x
  | u :: rest, x => mainFwd I rest (u.2.fwd I x)

/-- `ResidualUnit.forward` (lines 186-189 of the source): the residual of
`x`, the main path applied to `x`, and their sum `cx + res`. -/
def ResidualUnit.forward {T : Type} [Add T] (I : Layer → T → T)
    (ru : ResidualUnit) (x : T) : T :=
  let res := I ru.residual x
  let cx := mainFwd I ru.conv x
  cx + res

/-- The primitive layers owned by a `Convolution` block. -/
def Convolution.layerList (b : Convolution) : List Layer := b.layers.map Prod.snd

/-- All primitive layers owned by a `ResidualUnit`: the residual layer and
the layers of every sub-unit. -/
def ResidualUnit.allLayers (ru : ResidualUnit) : List Layer :=
  ru.residual :: (ru.conv.map (fun u => u.2.layerList)).flatten

/-- A default `ResidualUnit`, used to extract concrete construction results. -/
def ru0 : ResidualUnit := ⟨0, 0, 0, [], Layer.identity⟩

/-- A default `Convolution`, used to extract concrete construction results. -/
def cb0 : Convolution := ⟨0, 0, 0, false, []⟩

/-- Extract the value of a successful construction, with a fallback. -/
def exceptGet {α : Type} (d : α) : Except ConstrErr α → α
  | .ok v => v
  | .error _ => d

/-! ## Helper lemmas -/

theorem two_mul_same_pad (k d : Nat) (hk : k % 2 = 1) :
    2 * ((k - 1) * d / 2) = (k - 1) * d := by
  apply Nat.mul_div_cancel'
  have h2 : 2 ∣ (k - 1) := by omega
  exact Dvd.dvd.mul_right h2 d

theorem zip_map_eq_zipWith {α β γ : Type} (f : α → β → γ) :
    ∀ (as : List α) (bs : List β),
      (as.zip bs).map (fun p => f p.1 p.2) = List.zipWith f as bs := by
  intro as
  induction as with
  | nil => intro bs; rfl
  | cons a as ih =>
    intro bs
    cases bs with
    | nil => rfl
    | cons b bs => simp [ih]

theorem conv_same_preserves (k d : Nat) (hk : k % 2 = 1) :
    ∀ (ns : List Nat), (∀ n ∈ ns, 1 ≤ n) →
      convValid ns (List.replicate ns.length k) (List.replicate ns.length 1)
          (List.replicate ns.length ((k - 1) * d / 2)) (List.replicate ns.length d) = true ∧
      convSpatial ns (List.replicate ns.length k) (List.replicate ns.length 1)
          (List.replicate ns.length ((k - 1) * d / 2)) (List.replicate ns.length d) = ns := by
  intro ns
  induction ns with
  | nil => intro _; exact ⟨rfl, rfl⟩
  | cons n ns ih =>
    intro hpos
    have hn : 1 ≤ n := hpos n (by simp)
    have hrest := ih (fun m hm => hpos m (by simp [hm]))
    have h2p := two_mul_same_pad k d hk
    have hcm : d * (k - 1) = (k - 1) * d := Nat.mul_comm _ _
    constructor
    · simp only [List.length_cons, List.replicate_succ, convValid]
      rw [hrest.1]
      simp only [Bool.and_true, decide_eq_true_eq]
      omega
    · simp only [List.length_cons, List.replicate_succ, convSpatial]
      rw [hrest.2]
      simp only [convOutDim, Nat.div_one, List.cons.injEq, and_true]
      omega

theorem actResolve_isSome (act : Option LayerSpec) (actInfo : Option (String × Args))
    (h : actResolve act = .ok actInfo) : actInfo.isSome = act.isSome := by
  unfold actResolve at h
  split at h
  · injection h with h; subst h; rfl
  · split at h
    · exact absurd h (by simp)
    · split at h
      · exact absurd h (by simp)
      · injection h with h; subst h; rfl

theorem dropoutResolve_isSome (dropout : DropoutParam) (dims : Nat)
    (dropInfo : Option (String × Args))
    (h : dropoutResolve dropout dims = .ok dropInfo) : dropInfo.isSome = dropout.truthy := by
  unfold dropoutResolve at h
  split at h
  next ht =>
    rw [ht]
    split at h
    · exact absurd h (by simp)
    · split at h
      · exact absurd h (by simp)
      · injection h with h; subst h; rfl
    · split at h
      · exact absurd h (by simp)
      · split at h
        · exact absurd h (by simp)
        · injection h with h; subst h; rfl
  next ht =>
    injection h with h; subst h
    simp only [Bool.not_eq_true] at ht
    rw [ht]
    rfl

theorem Convolution.init_ok_layers
    (dims inC outC : Nat) (strides kernel : Param) (act norm : Option LayerSpec)
    (dropout : DropoutParam) (dilation : Param) (bias co tr : Bool) (b : Convolution)
    (h : Convolution.init dims inC outC strides kernel act norm dropout dilation bias co tr = .ok b) :
    ∃ padding norm_name norm_args actInfo dropInfo conv,
      same_padding kernel dilation = .ok padding ∧
      split_args norm = .ok (norm_name, norm_args) ∧
      normLookup norm_name dims = .ok () ∧
      convLookup tr dims = .ok () ∧
      actResolve act = .ok actInfo ∧
      dropoutResolve dropout dims = .ok dropInfo ∧
      ((tr = true ∧ ∃ op, strides.subOne = .ok op ∧
          conv = Layer.convTrans dims inC outC kernel strides padding op 1 bias dilation) ∨
        (tr = false ∧ conv = Layer.conv dims inC outC kernel strides padding dilation bias)) ∧
      b = ⟨dims, inC, outC, tr,
        [("conv", conv)] ++
          (if co then [] else
            [("norm", Layer.norm norm_name dims outC norm_args)] ++
              (match dropInfo with
               | some dnda => [("dropout", Layer.dropoutL dnda.1 dims dnda.2)]
               | Option.none => []) ++
              (match actInfo with
               | some anaa => [("act", Layer.actL anaa.1 anaa.2)]
               | Option.none => []))⟩ := by
  unfold Convolution.init at h
  split at h
  · exact absurd h (by simp)
  next padding hsp =>
  split at h
  · exact absurd h (by simp)
  next u1 hcl =>
  split at h
  · exact absurd h (by simp)
  next norm_name norm_args hna =>
  split at h
  · exact absurd h (by simp)
  next u2 hnl =>
  split at h
  · exact absurd h (by simp)
  next actInfo har =>
  split at h
  · exact absurd h (by simp)
  next dropInfo hdr =>
  split at h
  · exact absurd h (by simp)
  next conv hcv =>
  injection h with h
  refine ⟨padding, norm_name, norm_args, actInfo, dropInfo, conv, hsp, hna, ?_, ?_, har, hdr, ?_, ?_⟩
  · cases u2; exact hnl
  · cases u1; exact hcl
  · cases tr with
    | false =>
      right
      refine ⟨rfl, ?_⟩
      rw [if_neg (by simp)] at hcv
      injection hcv with hcv
      exact hcv.symm
    | true =>
      left
      refine ⟨rfl, ?_⟩
      rw [if_pos rfl] at hcv
      split at hcv
      · exact absurd hcv (by simp)
      next op hop =>
        injection hcv with hcv
        exact ⟨op, hop, hcv.symm⟩
  · rw [← h]
    rcases dropInfo with _ | ⟨dn, da⟩ <;> rcases actInfo with _ | ⟨an, aa⟩ <;> rfl

theorem buildUnits_ok_char (dims outC : Nat) (kernel : Param) (act norm : Option LayerSpec)
    (dropout : DropoutParam) (dilation : Param) (bias lco : Bool) :
    ∀ (count su schannels : Nat) (sstrides : Param) (units : List (String × Convolution)),
      buildUnits dims outC kernel act norm dropout dilation bias lco su count schannels sstrides
        = .ok units →
      units.length = count ∧
      ∀ i (hi : i < units.length),
        (units.get ⟨i, hi⟩).1 = "unit" ++ toString (su + i) ∧
        Convolution.init dims (if i = 0 then schannels else outC) outC
          (if i = 0 then sstrides else Param.scalar 1) kernel act norm dropout dilation bias
          (lco && decide (i + 1 = count)) false = .ok (units.get ⟨i, hi⟩).2 := by
  intro count
  induction count with
  | zero =>
    intro su sch sst units h
    unfold buildUnits at h
    injection h with h
    subst h
    exact ⟨rfl, fun i hi => absurd hi (by simp)⟩
  | succ n ih =>
    intro su sch sst units h
    unfold buildUnits at h
    split at h
    · exact absurd h (by simp)
    next u hu =>
    split at h
    · exact absurd h (by simp)
    next rest hrest =>
    injection h with h
    subst h
    obtain ⟨hlen, hspec⟩ := ih (su + 1) outC (Param.scalar 1) rest hrest
    constructor
    · simp [hlen]
    · intro i hi
      cases i with
      | zero =>
        constructor
        · rfl
        · have hco : (lco && n == 0) = (lco && decide (0 + 1 = n + 1)) := by
            cases n <;> simp
          rw [← hco]
          simp only [if_pos rfl]
          exact hu
      | succ j =>
        have hj : j < rest.length := by
          simp only [List.length_cons] at hi
          omega
        obtain ⟨hname, hinit⟩ := hspec j hj
        constructor
        · show (rest.get ⟨j, hj⟩).1 = "unit" ++ toString (su + (j + 1))
          have harith : su + (j + 1) = su + 1 + j := by omega
          rw [harith]
          exact hname
        · show Convolution.init dims _ outC _ kernel act norm dropout dilation bias _ false
            = .ok (rest.get ⟨j, hj⟩).2
          have e1 : (if j = 0 then outC else outC) = outC := by split <;> rfl
          have e2 : (if j = 0 then Param.scalar 1 else Param.scalar 1) = Param.scalar 1 := by
            split <;> rfl
          rw [e1, e2] at hinit
          have e3 : decide (j + 1 = n) = decide (j + 1 + 1 = n + 1) := by
            simp only [decide_eq_decide]
            omega
          rw [e3] at hinit
          exact hinit

theorem ResidualUnit.init_ok_inv
    (dims inC outC : Nat) (strides kernel : Param) (subunits : Nat)
    (act norm : Option LayerSpec) (dropout : DropoutParam) (dilation : Param)
    (bias lco : Bool) (ru : ResidualUnit)
    (h : ResidualUnit.init dims inC outC strides kernel subunits act norm dropout dilation bias lco
      = .ok ru) :
    ∃ padding units,
      same_padding kernel dilation = .ok padding ∧
      buildUnits dims outC kernel act norm dropout dilation bias lco 0 (max 1 subunits) inC strides
        = .ok units ∧
      ru = ⟨dims, inC, outC, units,
        if strides.prod ≠ 1 ∨ inC ≠ outC then
          Layer.conv dims inC outC (if strides.prod = 1 then Param.scalar 1 else kernel) strides
            (if strides.prod = 1 then Param.scalar 0 else padding) (Param.scalar 1) bias
        else Layer.identity⟩ := by
  unfold ResidualUnit.init at h
  split at h
  · exact absurd h (by simp)
  next padding hsp =>
  split at h
  · exact absurd h (by simp)
  next units hbu =>
  refine ⟨padding, units, hsp, hbu, ?_⟩
  by_cases hc : strides.prod ≠ 1 ∨ inC ≠ outC
  · rw [if_pos hc] at h
    rw [if_pos hc]
    split at h
    · exact absurd h (by simp)
    next u1 hcl =>
    injection h with h
    exact h.symm
  · rw [if_neg hc] at h
    rw [if_neg hc]
    injection h with h
    exact h.symm

/-! ## Claim theorems -/

/-- C1: for every `ResidualUnit` construction, the residual path is the
identity exactly when the product of the strides is 1 and `in_channels`
equals `out_channels`; otherwise it is a single plain convolution from
`in_channels` to `out_channels` with the requested strides, and when the
stride product is 1 but the channel counts differ that convolution uses
kernel size 1 and padding 0 (otherwise the requested kernel and the computed
same padding). -/
theorem residual_path_selection
    (dims inC outC : Nat) (strides kernel : Param) (subunits : Nat)
    (act norm : Option LayerSpec) (dropout : DropoutParam) (dilation : Param)
    (bias lco : Bool) (ru : ResidualUnit)
    (h : ResidualUnit.init dims inC outC strides kernel subunits act norm dropout dilation bias lco
      = .ok ru) :
    (ru.residual = Layer.identity ↔ (strides.prod = 1 ∧ inC = outC)) ∧
    (¬(strides.prod = 1 ∧ inC = outC) →
      ∃ padding, same_padding kernel dilation = .ok padding ∧
        ru.residual = Layer.conv dims inC outC
          (if strides.prod = 1 then Param.scalar 1 else kernel) strides
          (if strides.prod = 1 then Param.scalar 0 else padding) (Param.scalar 1) bias) := by
  obtain ⟨padding, units, hsp, hbu, hru⟩ :=
    ResidualUnit.init_ok_inv dims inC outC strides kernel subunits act norm dropout dilation
      bias lco ru h
  by_cases hc : strides.prod ≠ 1 ∨ inC ≠ outC
  · have hres : ru.residual = Layer.conv dims inC outC
        (if strides.prod = 1 then Param.scalar 1 else kernel) strides
        (if strides.prod = 1 then Param.scalar 0 else padding) (Param.scalar 1) bias := by
      rw [hru]
      show (if strides.prod ≠ 1 ∨ inC ≠ outC then _ else Layer.identity) = _
      rw [if_pos hc]
    constructor
    · rw [hres]
      constructor
      · intro habs
        exact absurd habs (by simp)
      · intro hpair
        exact absurd hpair (by tauto)
    · intro _
      exact ⟨padding, hsp, hres⟩
  · have hpair : strides.prod = 1 ∧ inC = outC := by
      push_neg at hc
      exact hc
    have hres : ru.residual = Layer.identity := by
      rw [hru]
      show (if strides.prod ≠ 1 ∨ inC ≠ outC then _ else Layer.identity) = _
      rw [if_neg hc]
    constructor
    · rw [hres]
      exact ⟨fun _ => hpair, fun _ => rfl⟩
    · intro habs
      exact absurd hpair habs

/-- Witness for C1 at `dims=1, in=4, out=8, strides=1` (the pure
channel-projection case). -/
theorem residual_path_selection_witness :
    ((exceptGet ru0 (ResidualUnit.init 1 4 8 (Param.scalar 1) (Param.scalar 3) 2 (some Act.PRELU)
        (some Norm.INSTANCE) DropoutParam.none (Param.scalar 1) true false)).residual
      = Layer.identity ↔ ((Param.scalar 1).prod = 1 ∧ 4 = 8)) ∧
    (¬((Param.scalar 1).prod = 1 ∧ 4 = 8) →
      ∃ padding, same_padding (Param.scalar 3) (Param.scalar 1) = .ok padding ∧
        (exceptGet ru0 (ResidualUnit.init 1 4 8 (Param.scalar 1) (Param.scalar 3) 2 (some Act.PRELU)
            (some Norm.INSTANCE) DropoutParam.none (Param.scalar 1) true false)).residual
          = Layer.conv 1 4 8
              (if (Param.scalar 1).prod = 1 then Param.scalar 1 else Param.scalar 3)
              (Param.scalar 1)
              (if (Param.scalar 1).prod = 1 then Param.scalar 0 else padding)
              (Param.scalar 1) true) :=
  residual_path_selection 1 4 8 (Param.scalar 1) (Param.scalar 3) 2 (some Act.PRELU)
    (some Norm.INSTANCE) DropoutParam.none (Param.scalar 1) true false _ (by rfl)

/-- C4: the main path of a `ResidualUnit` has `max 1 subunits` sub-units
named `unit0`, `unit1`, ...; the first is a `Convolution` from `in_channels`
to `out_channels` with the requested strides, every later one maps
`out_channels` to `out_channels` with stride 1; kernel size, act, norm,
dropout, dilation and bias are passed identically to every sub-unit, and the
`conv_only` flag is set only on the last sub-unit and only when
`last_conv_only` is set. -/
theorem residual_subunits_structure
    (dims inC outC : Nat) (strides kernel : Param) (subunits : Nat)
    (act norm : Option LayerSpec) (dropout : DropoutParam) (dilation : Param)
    (bias lco : Bool) (ru : ResidualUnit)
    (h : ResidualUnit.init dims inC outC strides kernel subunits act norm dropout dilation bias lco
      = .ok ru) :
    ru.conv.length = max 1 subunits ∧
    ∀ i (hi : i < ru.conv.length),
      (ru.conv.get ⟨i, hi⟩).1 = "unit" ++ toString i ∧
      Convolution.init dims (if i = 0 then inC else outC) outC
        (if i = 0 then strides else Param.scalar 1) kernel act norm dropout dilation bias
        (lco && decide (i + 1 = max 1 subunits)) false = .ok (ru.conv.get ⟨i, hi⟩).2 := by
  obtain ⟨padding, units, hsp, hbu, hru⟩ :=
    ResidualUnit.init_ok_inv dims inC outC strides kernel subunits act norm dropout dilation
      bias lco ru h
  obtain ⟨hlen, hspec⟩ := buildUnits_ok_char dims outC kernel act norm dropout dilation bias lco
    (max 1 subunits) 0 inC strides units hbu
  subst hru
  refine ⟨hlen, ?_⟩
  intro i hi
  obtain ⟨hname, hinit⟩ := hspec i hi
  rw [Nat.zero_add] at hname
  exact ⟨hname, hinit⟩

/-- Witness for C4 at `dims=1, in=4, out=8, strides=2, subunits=3,
last_conv_only=true`. -/
theorem residual_subunits_structure_witness :
    (exceptGet ru0 (ResidualUnit.init 1 4 8 (Param.scalar 2) (Param.scalar 3) 3 (some Act.PRELU)
        (some Norm.INSTANCE) DropoutParam.none (Param.scalar 1) true true)).conv.length
      = max 1 3 ∧
    ∀ i (hi : i < (exceptGet ru0 (ResidualUnit.init 1 4 8 (Param.scalar 2) (Param.scalar 3) 3
        (some Act.PRELU) (some Norm.INSTANCE) DropoutParam.none (Param.scalar 1) true true)).conv.length),
      ((exceptGet ru0 (ResidualUnit.init 1 4 8 (Param.scalar 2) (Param.scalar 3) 3 (some Act.PRELU)
          (some Norm.INSTANCE) DropoutParam.none (Param.scalar 1) true true)).conv.get ⟨i, hi⟩).1
        = "unit" ++ toString i ∧
      Convolution.init 1 (if i = 0 then 4 else 8) 8
          (if i = 0 then Param.scalar 2 else Param.scalar 1) (Param.scalar 3) (some Act.PRELU)
          (some Norm.INSTANCE) DropoutParam.none (Param.scalar 1) true
          (true && decide (i + 1 = max 1 3)) false
        = .ok ((exceptGet ru0 (ResidualUnit.init 1 4 8 (Param.scalar 2) (Param.scalar 3) 3
            (some Act.PRELU) (some Norm.INSTANCE) DropoutParam.none (Param.scalar 1) true true)).conv.get
            ⟨i, hi⟩).2 :=
  residual_subunits_structure 1 4 8 (Param.scalar 2) (Param.scalar 3) 3 (some Act.PRELU)
    (some Norm.INSTANCE) DropoutParam.none (Param.scalar 1) true true _ (by rfl)

/-- C2: a constructed `Convolution` block starts with the convolution
sub-layer; with `conv_only` it contains exactly that one sub-layer, and
otherwise the sub-layer names are `conv`, `norm`, then `dropout` iff the
dropout argument was requested (truthy), then `act` iff the activation is
non-null — so with non-null act/norm and non-zero dropout the block is
exactly `conv, norm, dropout, act`. -/
theorem convolution_layer_order
    (dims inC outC : Nat) (strides kernel : Param) (act norm : Option LayerSpec)
    (dropout : DropoutParam) (dilation : Param) (bias conv_only is_transposed : Bool)
    (b : Convolution)
    (h : Convolution.init dims inC outC strides kernel act norm dropout dilation bias conv_only
      is_transposed = .ok b) :
    (∃ c, b.layers.head? = some ("conv", c) ∧ c.isConvLayer = true) ∧
    b.layers.map Prod.fst =
      "conv" :: (if conv_only then [] else
        "norm" :: ((if dropout.truthy then ["dropout"] else []) ++
          (if act.isSome then ["act"] else []))) := by
  obtain ⟨padding, nn, na, actInfo, dropInfo, conv, hsp, hna, hnl, hcl, har, hdr, hconv, hb⟩ :=
    Convolution.init_ok_layers dims inC outC strides kernel act norm dropout dilation bias
      conv_only is_transposed b h
  subst hb
  constructor
  · refine ⟨conv, rfl, ?_⟩
    rcases hconv with ⟨_, op, _, hcv⟩ | ⟨_, hcv⟩ <;> rw [hcv] <;> rfl
  · have hd := dropoutResolve_isSome dropout dims dropInfo hdr
    have ha := actResolve_isSome act actInfo har
    rw [← hd, ← ha]
    rcases dropInfo with _ | ⟨dn, da⟩ <;> rcases actInfo with _ | ⟨an, aa⟩ <;>
      cases conv_only <;> simp

/-- C3, the code evaluated at a failing input: with `dilation = 2`,
`kernel_size = 3`, `strides = 2` and channels 4→8, construction succeeds,
but on an input of shape (channels 4, spatial [5]) the main path produces
spatial size [3] while the residual path (whose convolution is built
without the dilation argument, line 184) produces [4] — the two paths
disagree in shape, so the addition in `forward` is invalid. -/
theorem residual_main_shape_mismatch :
    (ResidualUnit.init 1 4 8 (Param.scalar 2) (Param.scalar 3) 1 (some Act.PRELU)
      (some Norm.INSTANCE) DropoutParam.none (Param.scalar 2) true false).isOk = true ∧
    mainOutShape (exceptGet ru0 (ResidualUnit.init 1 4 8 (Param.scalar 2) (Param.scalar 3) 1
      (some Act.PRELU) (some Norm.INSTANCE) DropoutParam.none (Param.scalar 2) true false)).conv
      ⟨4, [5]⟩ = some ⟨8, [3]⟩ ∧
    Layer.outShape (exceptGet ru0 (ResidualUnit.init 1 4 8 (Param.scalar 2) (Param.scalar 3) 1
      (some Act.PRELU) (some Norm.INSTANCE) DropoutParam.none (Param.scalar 2) true false)).residual
      ⟨4, [5]⟩ = some ⟨8, [4]⟩ :=
  ⟨rfl, rfl, rfl⟩

/-- C5: `ResidualUnit.forward` computes the residual path applied to the
input plus the main path applied to the same input (the source sums them as
`cx + res`; tensor addition is commutative), with the input value passed
unchanged to both paths. -/
theorem forward_residual_plus_main {T : Type} [AddCommMonoid T] (I : Layer → T → T)
    (ru : ResidualUnit) (x : T) :
    ResidualUnit.forward I ru x = I ru.residual x + mainFwd I ru.conv x := by
  show mainFwd I ru.conv x + I ru.residual x = I ru.residual x + mainFwd I ru.conv x
  exact add_comm _ _

/-- Witness for C2 at `dims=1, channels 1→1, act=PReLU, norm=instance,
dropout=1, conv_only=false`: the four sub-layers conv, norm, dropout, act. -/
theorem convolution_layer_order_witness :
    (∃ c, (exceptGet cb0 (Convolution.init 1 1 1 (Param.scalar 1) (Param.scalar 3) (some Act.PRELU)
        (some Norm.INSTANCE) (DropoutParam.num 1) (Param.scalar 1) true false false)).layers.head?
        = some ("conv", c) ∧ c.isConvLayer = true) ∧
    (exceptGet cb0 (Convolution.init 1 1 1 (Param.scalar 1) (Param.scalar 3) (some Act.PRELU)
        (some Norm.INSTANCE) (DropoutParam.num 1) (Param.scalar 1) true false
        false)).layers.map Prod.fst
      = "conv" :: (if false then [] else
          "norm" :: ((if (DropoutParam.num 1).truthy then ["dropout"] else []) ++
            (if (some Act.PRELU).isSome then ["act"] else []))) :=
  convolution_layer_order 1 1 1 (Param.scalar 1) (Param.scalar 3) (some Act.PRELU)
    (some Norm.INSTANCE) (DropoutParam.num 1) (Param.scalar 1) true false false _ (by rfl)

theorem dropoutResolve_shorthand (p : ℚ) (hp : p ≠ 0) (dims : Nat) :
    dropoutResolve (DropoutParam.num p) dims
      = dropoutResolve (DropoutParam.spec (.pair Dropout.DROPOUT [("p", p)])) dims := by
  unfold dropoutResolve
  rw [(by simp [DropoutParam.truthy, hp] : (DropoutParam.num p).truthy = true)]
  rfl

/-- C6 counterexample: at the bare numeric dropout value 0 the bare form is
falsy, so no dropout sub-layer is added, while the explicit
(default-kind, p = 0) pair form is truthy and adds a dropout sub-layer —
the two blocks differ. -/
theorem dropout_shorthand_cex :
    Convolution.init 1 1 1 (Param.scalar 1) (Param.scalar 3) (some Act.PRELU) (some Norm.INSTANCE)
        (DropoutParam.num 0) (Param.scalar 1) true false false
      ≠ Convolution.init 1 1 1 (Param.scalar 1) (Param.scalar 3) (some Act.PRELU)
          (some Norm.INSTANCE) (DropoutParam.spec (.pair Dropout.DROPOUT [("p", 0)]))
          (Param.scalar 1) true false false := by
  decide

/-- C6 (amended): for every NON-ZERO bare numeric dropout value `p`, the
constructed block is identical to the one constructed with the explicit
(default-kind, p) spec form, and (when sub-layers are added at all) the
dropout sub-layer is the default dropout kind with keyword `p`. At `p = 0`
the bare form disables dropout entirely whereas the explicit pair form
still adds a dropout layer with p = 0. -/
theorem dropout_shorthand (p : ℚ) (hp : p ≠ 0)
    (dims inC outC : Nat) (strides kernel : Param) (act norm : Option LayerSpec)
    (dilation : Param) (bias conv_only is_transposed : Bool) :
    (Convolution.init dims inC outC strides kernel act norm (DropoutParam.num p) dilation bias
        conv_only is_transposed
      = Convolution.init dims inC outC strides kernel act norm
          (DropoutParam.spec (.pair Dropout.DROPOUT [("p", p)])) dilation bias conv_only
          is_transposed) ∧
    (¬ conv_only = true → ∀ b, Convolution.init dims inC outC strides kernel act norm
        (DropoutParam.num p) dilation bias conv_only is_transposed = .ok b →
      ("dropout", Layer.dropoutL Dropout.DROPOUT dims [("p", p)]) ∈ b.layers) := by
  constructor
  · unfold Convolution.init
    rw [dropoutResolve_shorthand p hp dims]
  · intro hco b h
    obtain ⟨padding, nn, na, actInfo, dropInfo, conv, hsp, hna, hnl, hcl, har, hdr, hconv, hb⟩ :=
      Convolution.init_ok_layers dims inC outC strides kernel act norm (DropoutParam.num p)
        dilation bias conv_only is_transposed b h
    have hdrop : dropInfo = some (Dropout.DROPOUT, [("p", p)]) := by
      unfold dropoutResolve at hdr
      rw [(by simp [DropoutParam.truthy, hp] : (DropoutParam.num p).truthy = true)] at hdr
      rw [if_pos rfl] at hdr
      have hdr2 : (match dropoutLookup Dropout.DROPOUT dims with
        | Except.error e => Except.error e
        | Except.ok _ => Except.ok (some (Dropout.DROPOUT, [("p", p)]))) = Except.ok dropInfo := hdr
      split at hdr2
      · exact absurd hdr2 (by simp)
      · injection hdr2 with hdr2
        exact hdr2.symm
    subst hb
    show _ ∈ [("conv", conv)] ++
      (if conv_only then [] else
        [("norm", Layer.norm nn dims outC na)] ++ _ ++ _)
    rw [if_neg hco, hdrop]
    simp

/-- Witness for C6 at `p = 1`. -/
theorem dropout_shorthand_witness :
    (Convolution.init 1 1 1 (Param.scalar 1) (Param.scalar 3) (some Act.PRELU) (some Norm.INSTANCE)
        (DropoutParam.num 1) (Param.scalar 1) true false false
      = Convolution.init 1 1 1 (Param.scalar 1) (Param.scalar 3) (some Act.PRELU)
          (some Norm.INSTANCE) (DropoutParam.spec (.pair Dropout.DROPOUT [("p", 1)]))
          (Param.scalar 1) true false false) ∧
    (¬ false = true → ∀ b, Convolution.init 1 1 1 (Param.scalar 1) (Param.scalar 3) (some Act.PRELU)
        (some Norm.INSTANCE) (DropoutParam.num 1) (Param.scalar 1) true false false = .ok b →
      ("dropout", Layer.dropoutL Dropout.DROPOUT 1 [("p", 1)]) ∈ b.layers) :=
  dropout_shorthand 1 one_ne_zero 1 1 1 (Param.scalar 1) (Param.scalar 3) (some Act.PRELU)
    (some Norm.INSTANCE) (Param.scalar 1) true false false

/-- C7: a transposed `Convolution` (with integer strides `s ≥ 1`, as the
source's type hints require) constructs the transposed convolution with
output padding `s - 1` and groups 1; a non-transposed construction uses the
plain convolution constructor, which takes no output-padding argument. -/
theorem transposed_output_padding
    (dims inC outC s : Nat) (kernel : Param) (act norm : Option LayerSpec)
    (dropout : DropoutParam) (dilation : Param) (bias conv_only : Bool) (_hs : 1 ≤ s) :
    (∀ b, Convolution.init dims inC outC (Param.scalar s) kernel act norm dropout dilation bias
        conv_only true = .ok b →
      ∃ padding, same_padding kernel dilation = .ok padding ∧
        b.layers.head? = some ("conv", Layer.convTrans dims inC outC kernel (Param.scalar s)
          padding (Param.scalar (s - 1)) 1 bias dilation)) ∧
    (∀ b strides, Convolution.init dims inC outC strides kernel act norm dropout dilation bias
        conv_only false = .ok b →
      ∃ padding, same_padding kernel dilation = .ok padding ∧
        b.layers.head? = some ("conv",
          Layer.conv dims inC outC kernel strides padding dilation bias)) := by
  constructor
  · intro b h
    obtain ⟨padding, nn, na, actInfo, dropInfo, conv, hsp, hna, hnl, hcl, har, hdr, hconv, hb⟩ :=
      Convolution.init_ok_layers dims inC outC (Param.scalar s) kernel act norm dropout
        dilation bias conv_only true b h
    rcases hconv with ⟨_, op, hop, hcv⟩ | ⟨hfalse, _⟩
    · have hop2 : op = Param.scalar (s - 1) := by
        unfold Param.subOne at hop
        injection hop with hop
        exact hop.symm
      subst hb
      refine ⟨padding, hsp, ?_⟩
      rw [hcv, hop2]
      rfl
    · exact absurd hfalse (by simp)
  · intro b strides h
    obtain ⟨padding, nn, na, actInfo, dropInfo, conv, hsp, hna, hnl, hcl, har, hdr, hconv, hb⟩ :=
      Convolution.init_ok_layers dims inC outC strides kernel act norm dropout dilation bias
        conv_only false b h
    rcases hconv with ⟨hfalse, _⟩ | ⟨_, hcv⟩
    · exact absurd hfalse (by simp)
    · subst hb
      refine ⟨padding, hsp, ?_⟩
      rw [hcv]
      rfl

/-- Witness for C7 at `s = 2`, kernel 3, 1D. -/
theorem transposed_output_padding_witness :
    (∀ b, Convolution.init 1 1 1 (Param.scalar 2) (Param.scalar 3) (some Act.PRELU)
        (some Norm.INSTANCE) DropoutParam.none (Param.scalar 1) true false true = .ok b →
      ∃ padding, same_padding (Param.scalar 3) (Param.scalar 1) = .ok padding ∧
        b.layers.head? = some ("conv", Layer.convTrans 1 1 1 (Param.scalar 3) (Param.scalar 2)
          padding (Param.scalar (2 - 1)) 1 true (Param.scalar 1))) ∧
    (∀ b strides, Convolution.init 1 1 1 strides (Param.scalar 3) (some Act.PRELU)
        (some Norm.INSTANCE) DropoutParam.none (Param.scalar 1) true false false = .ok b →
      ∃ padding, same_padding (Param.scalar 3) (Param.scalar 1) = .ok padding ∧
        b.layers.head? = some ("conv",
          Layer.conv 1 1 1 (Param.scalar 3) strides padding (Param.scalar 1) true)) :=
  transposed_output_padding 1 1 1 2 (Param.scalar 3) (some Act.PRELU) (some Norm.INSTANCE)
    DropoutParam.none (Param.scalar 1) true false (by omega)

/-- C8: for every odd kernel size k and dilation d the computed padding is
((k - 1) * d) / 2 — as a scalar it is applied identically to every axis,
and per-axis values give per-axis paddings — and a stride-1 convolution
with that padding (and that kernel and dilation) preserves the spatial
size of its input exactly. -/
theorem same_padding_formula (k d : Nat) (hk : k % 2 = 1) :
    (same_padding (Param.scalar k) (Param.scalar d)
      = .ok (Param.scalar ((k - 1) * d / 2))) ∧
    (∀ dims, (Param.scalar ((k - 1) * d / 2)).expand dims
      = List.replicate dims ((k - 1) * d / 2)) ∧
    (∀ ks ds : List Nat, ks.length = ds.length → (∀ k2 ∈ ks, k2 % 2 = 1) →
      same_padding (Param.axes ks) (Param.axes ds)
        = .ok (Param.axes (List.zipWith (fun k2 d2 => (k2 - 1) * d2 / 2) ks ds))) ∧
    (∀ (dims inC outC : Nat) (bias : Bool) (ns : List Nat), ns.length = dims →
      (∀ n ∈ ns, 1 ≤ n) →
      Layer.outShape (Layer.conv dims inC outC (Param.scalar k) (Param.scalar 1)
          (Param.scalar ((k - 1) * d / 2)) (Param.scalar d) bias) ⟨inC, ns⟩
        = some ⟨outC, ns⟩) := by
  refine ⟨?_, ?_, ?_, ?_⟩
  · simp only [same_padding]
    rw [if_pos (by simp [hk])]
  · intro dims
    rfl
  · intro ks ds hlen hodd
    have hb : (Param.axes ks).bcast (Param.axes ds) = some (ks.zip ds) := by
      simp only [Param.bcast]
      rw [if_pos hlen]
    have hall : (ks.zip ds).all (fun kd => kd.1 % 2 == 1) = true := by
      rw [List.all_eq_true]
      intro kd hkd
      rcases kd with ⟨k2, d2⟩
      simp only [beq_iff_eq]
      exact hodd k2 (List.of_mem_zip hkd).1
    simp only [same_padding]
    rw [hb]
    show (if (ks.zip ds).all (fun kd => kd.1 % 2 == 1) = true then
        Except.ok (Param.axes ((ks.zip ds).map (fun kd => (kd.1 - 1) * kd.2 / 2)))
      else Except.error ConstrErr.samePaddingEven) = _
    rw [if_pos hall, ← zip_map_eq_zipWith (fun k2 d2 => (k2 - 1) * d2 / 2) ks ds]
  · intro dims inC outC bias ns hlen hpos
    subst hlen
    obtain ⟨hv, hs2⟩ := conv_same_preserves k d hk ns hpos
    show (if (inC == inC && (ns.length == ns.length) &&
        convValid ns (List.replicate ns.length k) (List.replicate ns.length 1)
          (List.replicate ns.length ((k - 1) * d / 2)) (List.replicate ns.length d)) = true then
        some (⟨outC, convSpatial ns (List.replicate ns.length k) (List.replicate ns.length 1)
          (List.replicate ns.length ((k - 1) * d / 2)) (List.replicate ns.length d)⟩ : Shape)
      else Option.none) = some ⟨outC, ns⟩
    rw [hv, hs2]
    simp

/-- Witness for C8 at `k = 3, d = 2` and a 1D input of spatial size 5. -/
theorem same_padding_formula_witness :
    (same_padding (Param.scalar 3) (Param.scalar 2)
      = .ok (Param.scalar ((3 - 1) * 2 / 2))) ∧
    (∀ dims, (Param.scalar ((3 - 1) * 2 / 2)).expand dims
      = List.replicate dims ((3 - 1) * 2 / 2)) ∧
    (∀ ks ds : List Nat, ks.length = ds.length → (∀ k2 ∈ ks, k2 % 2 = 1) →
      same_padding (Param.axes ks) (Param.axes ds)
        = .ok (Param.axes (List.zipWith (fun k2 d2 => (k2 - 1) * d2 / 2) ks ds))) ∧
    (∀ (dims inC outC : Nat) (bias : Bool) (ns : List Nat), ns.length = dims →
      (∀ n ∈ ns, 1 ≤ n) →
      Layer.outShape (Layer.conv dims inC outC (Param.scalar 3) (Param.scalar 1)
          (Param.scalar ((3 - 1) * 2 / 2)) (Param.scalar 2) bias) ⟨inC, ns⟩
        = some ⟨outC, ns⟩) :=
  same_padding_formula 3 2 (by decide)

theorem applyLayersFwd_congr {T : Type} (I J : Layer → T → T) :
    ∀ (ls : List (String × Layer)), (∀ l ∈ ls.map Prod.snd, ∀ t, I l t = J l t) →
      ∀ x, applyLayersFwd I ls x = applyLayersFwd J ls x := by
  intro ls
  induction ls with
  | nil => intro _ x; rfl
  | cons l rest ih =>
    intro h x
    show applyLayersFwd I rest (I l.2 x) = applyLayersFwd J rest (J l.2 x)
    rw [h l.2 (by simp)]
    exact ih (fun m hm t => h m (by simp [hm]) t) _

theorem mainFwd_congr {T : Type} (I J : Layer → T → T) :
    ∀ (units : List (String × Convolution)),
      (∀ l ∈ (units.map (fun u => u.2.layerList)).flatten, ∀ t, I l t = J l t) →
      ∀ x, mainFwd I units x = mainFwd J units x := by
  intro units
  induction units with
  | nil => intro _ x; rfl
  | cons u rest ih =>
    intro h x
    show mainFwd I rest (u.2.fwd I x) = mainFwd J rest (u.2.fwd J x)
    have hfwd : u.2.fwd I x = u.2.fwd J x := by
      unfold Convolution.fwd
      refine applyLayersFwd_congr I J u.2.layers ?_ x
      intro l hl t
      refine h l ?_ t
      rw [List.map_cons, List.flatten_cons]
      exact List.mem_append_left _ hl
    rw [hfwd]
    refine ih ?_ _
    intro l hl t
    refine h l ?_ t
    rw [List.map_cons, List.flatten_cons]
    exact List.mem_append_right _ hl

/-- C9: forward computation is a deterministic pure function of the input
and the layers the unit owns: any two interpretations of the primitive
layers that agree on the layers owned by the `ResidualUnit` (its residual
layer and every sub-layer of its sub-units) produce the same output on the
same input; in particular two runs under one interpretation coincide, and
nothing outside those owned layers and the input can influence the result. -/
theorem forward_deterministic {T : Type} [Add T] (I J : Layer → T → T)
    (ru : ResidualUnit) (h : ∀ l ∈ ru.allLayers, ∀ t, I l t = J l t) (x : T) :
    ResidualUnit.forward I ru x = ResidualUnit.forward J ru x := by
  show mainFwd I ru.conv x + I ru.residual x = mainFwd J ru.conv x + J ru.residual x
  have hres := h ru.residual (List.mem_cons_self _ _)
  have hmain : mainFwd I ru.conv x = mainFwd J ru.conv x := by
    refine mainFwd_congr I J ru.conv ?_ x
    intro l hl t
    exact h l (List.mem_cons_of_mem _ hl) t
  rw [hres, hmain]

/-- Witness for C9: a concrete two-sub-unit residual unit evaluated on a
rational input under the identity interpretation. -/
theorem forward_deterministic_witness :
    ResidualUnit.forward (fun _ t => t)
        (exceptGet ru0 (ResidualUnit.init 1 4 8 (Param.scalar 2) (Param.scalar 3) 2
          (some Act.PRELU) (some Norm.INSTANCE) DropoutParam.none (Param.scalar 1) true false))
        (0 : ℚ)
      = ResidualUnit.forward (fun _ t => t)
        (exceptGet ru0 (ResidualUnit.init 1 4 8 (Param.scalar 2) (Param.scalar 3) 2
          (some Act.PRELU) (some Norm.INSTANCE) DropoutParam.none (Param.scalar 1) true false))
        (0 : ℚ) :=
  forward_deterministic (fun _ t => t) (fun _ t => t)
    (exceptGet ru0 (ResidualUnit.init 1 4 8 (Param.scalar 2) (Param.scalar 3) 2
      (some Act.PRELU) (some Norm.INSTANCE) DropoutParam.none (Param.scalar 1) true false))
    (fun _ _ _ => rfl) (0 : ℚ)

/-- C10: the norm spec is resolved (split and looked up) unconditionally,
before `conv_only` is consulted: a null norm, or a norm spec whose name is
not in the normalization registry, makes construction fail even when
`conv_only` is true, whereas a null act is accepted (no activation sub-layer
is ever added, and with registered norm the construction succeeds). -/
theorem norm_resolved_unconditionally :
    (∀ (dims inC outC : Nat) (strides kernel : Param) (act : Option LayerSpec)
        (dropout : DropoutParam) (dilation : Param) (bias is_transposed : Bool),
      (Convolution.init dims inC outC strides kernel act Option.none dropout dilation bias true
        is_transposed).isOk = false) ∧
    (∀ (dims inC outC : Nat) (strides kernel : Param) (act : Option LayerSpec) (ns : LayerSpec)
        (dropout : DropoutParam) (dilation : Param) (bias is_transposed : Bool),
      ns.specName ∉ normRegistry →
      (Convolution.init dims inC outC strides kernel act (some ns) dropout dilation bias true
        is_transposed).isOk = false) ∧
    (∀ (dims inC outC : Nat) (strides kernel : Param) (norm : Option LayerSpec)
        (dropout : DropoutParam) (dilation : Param) (bias conv_only is_transposed : Bool)
        (b : Convolution),
      Convolution.init dims inC outC strides kernel Option.none norm dropout dilation bias
        conv_only is_transposed = .ok b → ∀ nl ∈ b.layers, nl.1 ≠ "act") ∧
    ((Convolution.init 1 2 3 (Param.scalar 1) (Param.scalar 3) Option.none (some Norm.INSTANCE)
      DropoutParam.none (Param.scalar 1) true false false).isOk = true) := by
  refine ⟨?_, ?_, ?_, ?_⟩
  · intro dims inC outC strides kernel act dropout dilation bias tr
    cases hini : Convolution.init dims inC outC strides kernel act Option.none dropout dilation
        bias true tr with
    | error e => rfl
    | ok b =>
      exfalso
      obtain ⟨padding, nn, na, actInfo, dropInfo, conv, hsp, hna, hnl, hcl, har, hdr, hconv, hb⟩ :=
        Convolution.init_ok_layers dims inC outC strides kernel act Option.none dropout dilation
          bias true tr b hini
      unfold split_args at hna
      exact Except.noConfusion hna
  · intro dims inC outC strides kernel act ns dropout dilation bias tr hmem
    cases hini : Convolution.init dims inC outC strides kernel act (some ns) dropout dilation
        bias true tr with
    | error e => rfl
    | ok b =>
      exfalso
      obtain ⟨padding, nn, na, actInfo, dropInfo, conv, hsp, hna, hnl, hcl, har, hdr, hconv, hb⟩ :=
        Convolution.init_ok_layers dims inC outC strides kernel act (some ns) dropout dilation
          bias true tr b hini
      have hreg : nn ∈ normRegistry := by
        unfold normLookup at hnl
        by_contra hng
        rw [if_neg (fun hc => hng hc.1)] at hnl
        exact Except.noConfusion hnl
      cases ns with
      | name n =>
        unfold split_args at hna
        injection hna with h1
        cases h1
        exact hmem hreg
      | pair n a =>
        unfold split_args at hna
        injection hna with h1
        cases h1
        exact hmem hreg
  · intro dims inC outC strides kernel norm dropout dilation bias conv_only tr b h nl hnl
    obtain ⟨padding, nn, na, actInfo, dropInfo, conv, hsp, hna, hnlk, hcl, har, hdr, hconv, hb⟩ :=
      Convolution.init_ok_layers dims inC outC strides kernel Option.none norm dropout dilation
        bias conv_only tr b h
    have hact : actInfo = Option.none := by
      unfold actResolve at har
      injection har with h1
      exact h1.symm
    subst hb
    rw [hact] at hnl
    have h1 := List.mem_map_of_mem Prod.fst hnl
    cases conv_only with
    | true =>
      simp at h1
      rw [h1]
      decide
    | false =>
      rcases dropInfo with _ | ⟨dn, da⟩ <;> simp at h1
      · rcases h1 with h1 | h1 <;> rw [h1] <;> decide
      · rcases h1 with h1 | h1 | h1 <;> rw [h1] <;> decide
  · rfl

/-- Witness for C10: an unregistered norm name fails even with
`conv_only = true`. -/
theorem norm_resolved_unconditionally_witness :
    (Convolution.init 1 2 3 (Param.scalar 1) (Param.scalar 3) Option.none
      (some (LayerSpec.name "nosuchnorm")) DropoutParam.none (Param.scalar 1) true true
      false).isOk = false :=
  norm_resolved_unconditionally.2.1 1 2 3 (Param.scalar 1) (Param.scalar 3) Option.none
    (LayerSpec.name "nosuchnorm") DropoutParam.none (Param.scalar 1) true false (by decide)
